import Mathlib

/-!
Verification of the Permitfinder normalization / storage / geocoding core.

The definitions below are a shallow embedding of the repository's Python
sources: `database.py` (namespace `Database`), `geocode_permits.py`
(namespace `GeocodePermits`) and `api.py` (namespace `Api`).  Strings are
modelled as Lean `String`, Python `None` as `Option`, SQL rows as a `Row`
structure, and the provider network as an explicit oracle function.
Floating point coordinates are modelled as rationals (the code only ever
compares them against the fixed British Columbia bounding box).
-/

/-- Python's notion of whitespace used by `str.strip` and by the regex
class `\s` (for the ASCII inputs the pipeline handles). -/
def pyWs (c : Char) : Bool :=
  c = ' ' || c = '\t' || c = '\n' || c = '\r' || c = '\x0b' || c = '\x0c'

/-- Python `str.strip()` on a list of characters. -/
def pyStripList (cs : List Char) : List Char :=
  ((cs.dropWhile pyWs).reverse.dropWhile pyWs).reverse

/-- Python `str.strip()`. -/
def pyStrip (s : String) : String :=
  String.mk (pyStripList s.toList)

/-- ASCII lower-casing of one character, as `str.lower()` does on ASCII. -/
def pyLowerChar (c : Char) : Char :=
  if 'A' ≤ c && c ≤ 'Z' then Char.ofNat (c.toNat + 32) else c

/-- ASCII letter test, i.e. the regex class `[A-Z]` under `re.IGNORECASE`. -/
def isAsciiLetter (c : Char) : Bool :=
  ('A' ≤ c && c ≤ 'Z') || ('a' ≤ c && c ≤ 'z')

/-- Case-insensitive literal match: `pat` is given lower-case; returns the
remaining input after the literal, or `none`. -/
def matchLitCI : List Char → List Char → Option (List Char)
  | [], cs => some cs
  | _ :: _, [] => none
  | p :: ps, c :: cs => if pyLowerChar c = p then matchLitCI ps cs else none

/-- Numeric value of a digit run. -/
def natOfDigits (cs : List Char) : Nat :=
  cs.foldl (fun a c => a * 10 + (c.toNat - 48)) 0

namespace Database

/-! ### `database.py` — Date/Value Normalizer (`parse_date`)

`parse_date` calls `datetime.strptime` with a fixed sequence of format
strings.  Each format is embedded as a parser over the character list; the
parsers reproduce CPython's `_strptime` regexes for the directives used:
`%Y` is exactly four digits, `%m`/`%d` are one or two digits within range
(a single digit must be 1-9), `%b`/`%B` match month names
case-insensitively, a space in the format matches a run of whitespace, and
other characters are literals.  A successful match must consume the whole
string and denote a real calendar date (as `datetime` validates). -/

/-- Directive `%m` or `%d`: one or two digits with the bound `hi` (12 or 31); a lone
digit must be non-zero.  Returns the value and the rest of the input. -/
def parseNumField (hi : Nat) (cs : List Char) : Option (Nat × List Char) :=
  let run := cs.takeWhile Char.isDigit
  let rest := cs.dropWhile Char.isDigit
  match run.length with
  | 1 => let v := natOfDigits run; if 1 ≤ v then some (v, rest) else none
  | 2 => let v := natOfDigits run; if 1 ≤ v && v ≤ hi then some (v, rest) else none
  | _ => none

/-- Directive `%Y`: exactly four digits. -/
def parseYear4 (cs : List Char) : Option (Nat × List Char) :=
  let run := cs.takeWhile Char.isDigit
  if run.length = 4 then some (natOfDigits run, cs.dropWhile Char.isDigit) else none

/-- One required literal character. -/
def expectChar (c : Char) (cs : List Char) : Option (List Char) :=
  match cs with
  | [] => none
  | d :: rest => if d = c then some rest else none

/-- A space in a `strptime` format: one or more whitespace characters. -/
def expectWs1 (cs : List Char) : Option (List Char) :=
  match cs with
  | [] => none
  | d :: rest => if pyWs d then some (rest.dropWhile pyWs) else none

/-- Abbreviated month names (`%b`), lower-cased. -/
def monthAbbrList : List String :=
  ["jan", "feb", "mar", "apr", "may", "jun", "jul", "aug", "sep", "oct", "nov", "dec"]

/-- Full month names (`%B`), lower-cased. -/
def monthFullList : List String :=
  ["january", "february", "march", "april", "may", "june", "july", "august",
   "september", "october", "november", "december"]

/-- Match one name of `names` case-insensitively, returning its 1-based
index (the month number) and the rest of the input. -/
def parseMonthName (names : List String) (cs : List Char) : Option (Nat × List Char) :=
  go names 1 cs
where
  go : List String → Nat → List Char → Option (Nat × List Char)
    | [], _, _ => none
    | n :: ns, i, cs =>
      match matchLitCI n.toList cs with
      | some rest => some (i, rest)
      | none => go ns (i + 1) cs

/-- Gregorian leap year, as `datetime` uses. -/
def isLeap (y : Nat) : Bool :=
  y % 4 = 0 && (y % 100 ≠ 0 || y % 400 = 0)

/-- Days in a month, as `datetime` validates. -/
def daysInMonth (y m : Nat) : Nat :=
  if m = 2 then (if isLeap y then 29 else 28)
  else if m = 4 || m = 6 || m = 9 || m = 11 then 30
  else 31

/-- The `datetime(year, month, day)` constructor's validity check (the
month range is already guaranteed by the format regexes). -/
def validDate (y m d : Nat) : Bool :=
  1 ≤ y && 1 ≤ d && d ≤ daysInMonth y m

/-- Format `%Y-%m-%d`. -/
def pIso (cs : List Char) : Option (Nat × Nat × Nat) := do
  let (y, cs) ← parseYear4 cs
  let cs ← expectChar '-' cs
  let (m, cs) ← parseNumField 12 cs
  let cs ← expectChar '-' cs
  let (d, cs) ← parseNumField 31 cs
  if cs.isEmpty then some (y, m, d) else none

/-- Format `%b %d, %Y` (e.g. `Feb 01, 2026`). -/
def pMonDY (cs : List Char) : Option (Nat × Nat × Nat) := do
  let (m, cs) ← parseMonthName monthAbbrList cs
  let cs ← expectWs1 cs
  let (d, cs) ← parseNumField 31 cs
  let cs ← expectChar ',' cs
  let cs ← expectWs1 cs
  let (y, cs) ← parseYear4 cs
  if cs.isEmpty then some (y, m, d) else none

/-- Format `%b, %d, %Y` (e.g. `Feb, 01, 2026`). -/
def pMonCommaDY (cs : List Char) : Option (Nat × Nat × Nat) := do
  let (m, cs) ← parseMonthName monthAbbrList cs
  let cs ← expectChar ',' cs
  let cs ← expectWs1 cs
  let (d, cs) ← parseNumField 31 cs
  let cs ← expectChar ',' cs
  let cs ← expectWs1 cs
  let (y, cs) ← parseYear4 cs
  if cs.isEmpty then some (y, m, d) else none

/-- Format `%m/%d/%Y`. -/
def pMDY (cs : List Char) : Option (Nat × Nat × Nat) := do
  let (m, cs) ← parseNumField 12 cs
  let cs ← expectChar '/' cs
  let (d, cs) ← parseNumField 31 cs
  let cs ← expectChar '/' cs
  let (y, cs) ← parseYear4 cs
  if cs.isEmpty then some (y, m, d) else none

/-- Format `%d/%m/%Y`. -/
def pDMY (cs : List Char) : Option (Nat × Nat × Nat) := do
  let (d, cs) ← parseNumField 31 cs
  let cs ← expectChar '/' cs
  let (m, cs) ← parseNumField 12 cs
  let cs ← expectChar '/' cs
  let (y, cs) ← parseYear4 cs
  if cs.isEmpty then some (y, m, d) else none

/-- Format `%Y/%m/%d`. -/
def pYMDslash (cs : List Char) : Option (Nat × Nat × Nat) := do
  let (y, cs) ← parseYear4 cs
  let cs ← expectChar '/' cs
  let (m, cs) ← parseNumField 12 cs
  let cs ← expectChar '/' cs
  let (d, cs) ← parseNumField 31 cs
  if cs.isEmpty then some (y, m, d) else none

/-- Format `%B %d, %Y` (e.g. `February 01, 2026`). -/
def pFullDY (cs : List Char) : Option (Nat × Nat × Nat) := do
  let (m, cs) ← parseMonthName monthFullList cs
  let cs ← expectWs1 cs
  let (d, cs) ← parseNumField 31 cs
  let cs ← expectChar ',' cs
  let cs ← expectWs1 cs
  let (y, cs) ← parseYear4 cs
  if cs.isEmpty then some (y, m, d) else none

/-- Run one format: the regex match plus the `datetime` validity check
(`strptime` raises `ValueError` on an impossible date, which `parse_date`
catches before moving to the next format). -/
def runFmt (p : List Char → Option (Nat × Nat × Nat)) (cs : List Char) :
    Option (Nat × Nat × Nat) :=
  match p cs with
  | some (y, m, d) => if validDate y m d then some (y, m, d) else none
  | none => none

/-- Left-pad a numeral with zeros to width `w`. -/
def padNat (w n : Nat) : String :=
  let s := Nat.repr n
  String.mk (List.replicate (w - s.length) '0') ++ s

/-- Rendering `dt.strftime('%Y-%m-%d')`: the canonical output form. -/
def fmtISO (y m d : Nat) : String :=
  padNat 4 y ++ "-" ++ padNat 2 m ++ "-" ++ padNat 2 d

/-- Function `database.parse_date`: try the formats in the source's fixed order and
return the first success; the ISO branch returns the input string itself,
the others re-render via `strftime('%Y-%m-%d')`; everything else is `None`.
The guard also maps empty / whitespace-only / `"(None)"` input to `None`. -/
def parse_date (s : String) : Option String :=
  if s = "" || pyStrip s = "" || s = "(None)" then none
  else
    let t := pyStrip s
    let cs := t.toList
    match runFmt pIso cs with
    | some _ => some t
    | none =>
      match runFmt pMonDY cs with
      | some (y, m, d) => some (fmtISO y m d)
      | none =>
        match runFmt pMonCommaDY cs with
        | some (y, m, d) => some (fmtISO y m d)
        | none =>
          match runFmt pMDY cs with
          | some (y, m, d) => some (fmtISO y m d)
          | none =>
            match runFmt pDMY cs with
            | some (y, m, d) => some (fmtISO y m d)
            | none =>
              match runFmt pYMDslash cs with
              | some (y, m, d) => some (fmtISO y m d)
              | none =>
                match runFmt pFullDY cs with
                | some (y, m, d) => some (fmtISO y m d)
                | none => none

end Database


namespace Database

/-! ### `database.py` — Schema Splitter and Canonical Store

A scraped permit is a mapping of field name to raw string value; it is
modelled as an association list (Python `dict` iteration order).  The
`permits` table is a list of `Row`s inside a `DB` carrying both the
committed snapshot and the open transaction's working state (psycopg2
opens a transaction implicitly; `conn.commit()` publishes it and
`conn.rollback()` discards it wholesale). -/

/-- Constant `database.CORE_FIELDS`: the set of canonical column names. -/
def CORE_FIELDS : List String :=
  ["permit_number", "permit_type", "status", "list_status",
   "application_date", "issue_date", "completed_date",
   "list_created_date", "list_issue_date", "list_completed_date",
   "primary_location", "specific_location", "list_location",
   "parcel_id", "parcel_address", "folio_number",
   "work_description", "type_of_work", "contractors", "url",
   "source_city"]

/-- The splitting loop of `prepare_permit_data`: a field named in
`CORE_FIELDS` goes to `core_data`; any other field goes to
`type_specific` unless its value is falsy (empty) or the `"(None)"`
sentinel, in which case it is dropped. -/
def splitFields : List (String × String) → List (String × String) × List (String × String)
  | [] => ([], [])
  | (k, v) :: rest =>
    if CORE_FIELDS.contains k then
      ((k, v) :: (splitFields rest).1, (splitFields rest).2)
    else if v ≠ "" && v ≠ "(None)" then
      ((splitFields rest).1, (k, v) :: (splitFields rest).2)
    else splitFields rest

/-- The six date columns normalized by `prepare_permit_data`. -/
def date_fields : List String :=
  ["application_date", "issue_date", "completed_date",
   "list_created_date", "list_issue_date", "list_completed_date"]

/-- Function `database.prepare_permit_data`: split the field map, then replace each
date field's value by its parsed form (`None` when unparseable). -/
def prepare_permit_data (permit : List (String × String)) :
    List (String × Option String) × List (String × String) :=
  ((splitFields permit).1.map
     (fun kv => (kv.1, if date_fields.contains kv.1 then parse_date kv.2 else some kv.2)),
   (splitFields permit).2)

/-- Lookup `core_data.get(k)`: `None` when the key is absent, else the stored
value (itself optional for date fields). -/
def lookupField (core : List (String × Option String)) (k : String) : Option String :=
  match core.find? (fun kv => kv.1 == k) with
  | none => none
  | some kv => kv.2

/-- The 20 non-key canonical columns that the upsert's
`ON CONFLICT ... DO UPDATE SET` list overwrites (plus `updated_at`). -/
structure CoreCols where
  permit_type : Option String
  status : Option String
  list_status : Option String
  application_date : Option String
  issue_date : Option String
  completed_date : Option String
  list_created_date : Option String
  list_issue_date : Option String
  list_completed_date : Option String
  primary_location : Option String
  specific_location : Option String
  list_location : Option String
  parcel_id : Option String
  parcel_address : Option String
  folio_number : Option String
  work_description : Option String
  type_of_work : Option String
  contractors : Option String
  url : Option String
  source_city : Option String
deriving DecidableEq, Repr

/-- The parameter dictionary `insert_permit` binds into its SQL. -/
structure Params where
  permit_number : Option String
  cols : CoreCols
  type_specific_data : List (String × String)
deriving DecidableEq, Repr

/-- The `params = {...}` block of `insert_permit`: every column is read
with `core_data.get`, and `source_city` falls back to `'Vancouver'` when
the key is absent. -/
def buildParams (permit : List (String × String)) : Params :=
  let pd := prepare_permit_data permit
  let core := pd.1
  { permit_number := lookupField core "permit_number"
    cols :=
      { permit_type := lookupField core "permit_type"
        status := lookupField core "status"
        list_status := lookupField core "list_status"
        application_date := lookupField core "application_date"
        issue_date := lookupField core "issue_date"
        completed_date := lookupField core "completed_date"
        list_created_date := lookupField core "list_created_date"
        list_issue_date := lookupField core "list_issue_date"
        list_completed_date := lookupField core "list_completed_date"
        primary_location := lookupField core "primary_location"
        specific_location := lookupField core "specific_location"
        list_location := lookupField core "list_location"
        parcel_id := lookupField core "parcel_id"
        parcel_address := lookupField core "parcel_address"
        folio_number := lookupField core "folio_number"
        work_description := lookupField core "work_description"
        type_of_work := lookupField core "type_of_work"
        contractors := lookupField core "contractors"
        url := lookupField core "url"
        source_city :=
          match core.find? (fun kv => kv.1 == "source_city") with
          | none => some "Vancouver"
          | some kv => kv.2 }
    type_specific_data := pd.2 }

/-- Per-record geocoding lifecycle state (`geocode_status` column). -/
inductive GStatus
  | pending
  | success
  | failed
deriving DecidableEq, Repr

/-- One row of the `permits` table.  Coordinates are rationals; `none`
models SQL `NULL`.  Timestamps are abstract ticks of a monotone clock. -/
structure Row where
  id : Nat
  permit_number : String
  cols : CoreCols
  type_specific_data : List (String × String)
  latitude : Option ℚ
  longitude : Option ℚ
  geocode_status : Option GStatus
  scraped_at : Nat
  updated_at : Nat
deriving DecidableEq

/-- Connection-with-table state: `committed` is the durable table,
`current` the working state of the open transaction; `nextId` feeds the
serial primary key and `now` is the statement clock. -/
structure DB where
  committed : List Row
  current : List Row
  nextId : Nat
  now : Nat
deriving DecidableEq

/-- The row a `WHERE permit_number = ...` point lookup returns. -/
def findRow (rows : List Row) (pn : String) : Option Row :=
  rows.find? (fun r => r.permit_number == pn)

/-- The `DO UPDATE SET` effect on the conflicting row: every canonical
column and the extension map are overwritten and `updated_at` is set to
the statement time; no other column is listed. -/
def updRow (r : Row) (p : Params) (t : Nat) : Row :=
  { r with cols := p.cols, type_specific_data := p.type_specific_data, updated_at := t }

/-- The freshly inserted row: serial id, payload columns, and the schema
defaults for the geocoding lifecycle and provenance timestamps. -/
def freshRow (db : DB) (p : Params) (pn : String) : Row :=
  { id := db.nextId, permit_number := pn, cols := p.cols
    type_specific_data := p.type_specific_data
    latitude := none, longitude := none, geocode_status := some .pending
    scraped_at := db.now, updated_at := db.now }

/-- Function `database.insert_permit`.

Modelled from the spec: the `permits` table DDL lives in `schema.sql`,
which is not under `src/`; per spec §3 and §4.3, `permit_number` is the
unique business key (`NOT NULL`, so a payload without it makes the
statement fail), a fresh row starts its geocode lifecycle as `pending`
with no coordinates, and `scraped_at`/`updated_at` default to the insert
time.  The statement itself follows `insert_permit`'s SQL: on a key
conflict every canonical column and the extension map are overwritten and
`updated_at` is refreshed; `latitude`, `longitude`, `geocode_status` and
`scraped_at` are not in the `DO UPDATE SET` list.  A failed statement is
caught, `conn.rollback()` resets the whole open transaction to the last
committed state, and `None` is returned. -/
def insert_permit (db : DB) (permit : List (String × String)) :
    Option Nat × DB :=
  let p := buildParams permit
  match p.permit_number with
  | none =>
    (none, { db with current := db.committed, now := db.now + 1 })
  | some pn =>
    match findRow db.current pn with
    | some r =>
      (some r.id,
       { db with
           current := db.current.map
             (fun x => if x.permit_number == pn then updRow r p db.now else x)
           now := db.now + 1 })
    | none =>
      (some db.nextId,
       { db with current := db.current ++ [freshRow db p pn]
                 nextId := db.nextId + 1, now := db.now + 1 })

/-- Function `database.insert_permits_batch`: insert each record, counting the ones
whose returned id is truthy, then `conn.commit()` at the end. -/
def insert_permits_batch (db : DB) (permits : List (List (String × String))) :
    Nat × DB :=
  let step := fun (acc : Nat × DB) (p : List (String × String)) =>
    let (pid, db2) := insert_permit acc.2 p
    (acc.1 + (match pid with | some i => if i ≠ 0 then 1 else 0 | none => 0), db2)
  let (count, db1) := permits.foldl step (0, db)
  (count, { db1 with committed := db1.current })

end Database

namespace GeocodePermits

open Database (Row DB GStatus)

/-! ### `geocode_permits.py` — Address Cleaner

`clean_address_for_geocoding` is a fixed sequence of `re.sub` calls.  Each
pattern is embedded as a deterministic matcher (the patterns' `\s*`/`\d+`
pieces are always followed by a character class disjoint from them, so
Python's backtracking never changes the greedy result).  End-anchored
patterns are applied by scanning for the leftmost position whose suffix
matches to the end; unanchored patterns by the usual leftmost,
non-overlapping scan of `re.sub`. -/

/-- Suffix matcher for the postal code pattern
`\s*[A-Z]\d[A-Z]\s*\d[A-Z]\d\s*$` (IGNORECASE). -/
def postalSuffix (cs : List Char) : Bool :=
  match cs.dropWhile pyWs with
  | a :: b :: c :: rest =>
    if isAsciiLetter a && b.isDigit && isAsciiLetter c then
      match rest.dropWhile pyWs with
      | d :: e :: f :: rest2 =>
        if d.isDigit && isAsciiLetter e && f.isDigit then
          (rest2.dropWhile pyWs).isEmpty
        else false
      | _ => false
    else false
  | _ => false

/-- Consume an optional leading comma (the regex piece `,?`). -/
def dropComma (cs : List Char) : List Char :=
  match cs with
  | [] => []
  | c :: rest => if c = ',' then rest else c :: rest

/-- Suffix matcher for `,?\s*Vancouver,?\s*BC\s*$` (IGNORECASE). -/
def vancouverBCSuffix (cs : List Char) : Bool :=
  match matchLitCI "vancouver".toList ((dropComma cs).dropWhile pyWs) with
  | none => false
  | some cs1 =>
    match matchLitCI "bc".toList ((dropComma cs1).dropWhile pyWs) with
    | none => false
    | some cs2 => (cs2.dropWhile pyWs).isEmpty

/-- Suffix matcher for `,?\s*Vancouver,?\s*British Columbia\s*$`
(IGNORECASE; the inner space is a literal single space). -/
def vancouverBritishColumbiaSuffix (cs : List Char) : Bool :=
  match matchLitCI "vancouver".toList ((dropComma cs).dropWhile pyWs) with
  | none => false
  | some cs1 =>
    match matchLitCI "british columbia".toList ((dropComma cs1).dropWhile pyWs) with
    | none => false
    | some cs2 => (cs2.dropWhile pyWs).isEmpty

/-- Replace the leftmost suffix accepted by `m` with `repl` (the shape of
`re.sub` for an `$`-anchored pattern; none of the patterns used can match
the empty string). -/
def subEnd (m : List Char → Bool) (repl : List Char) : List Char → List Char
  | [] => []
  | c :: rest => if m (c :: rest) then repl else c :: subEnd m repl rest

/-- Matcher, at the current position, for `\s*#\s*\d+\s*`: returns the
rest of the input after the match. -/
def hashUnitAt (cs : List Char) : Option (List Char) :=
  match cs.dropWhile pyWs with
  | [] => none
  | c :: rest =>
    if c = '#' then
      let cs2 := rest.dropWhile pyWs
      if (cs2.takeWhile Char.isDigit).isEmpty then none
      else some ((cs2.dropWhile Char.isDigit).dropWhile pyWs)
    else none

/-- Matcher, at the current position, for `\s*KW\.?\s*\d+\s*` with a
case-insensitive keyword (`Unit`, `Suite`, or `Apt` with `optDot`). -/
def kwUnitAt (kw : List Char) (optDot : Bool) (cs : List Char) : Option (List Char) :=
  match matchLitCI kw (cs.dropWhile pyWs) with
  | none => none
  | some cs1 =>
    let cs2 := if optDot then dropDot cs1 else cs1
    let cs3 := cs2.dropWhile pyWs
    if (cs3.takeWhile Char.isDigit).isEmpty then none
    else some ((cs3.dropWhile Char.isDigit).dropWhile pyWs)
where
  dropDot (cs : List Char) : List Char :=
    match cs with
    | [] => []
    | c :: rest => if c = '.' then rest else c :: rest

/-- The leftmost, non-overlapping scan of `re.sub` with replacement
`' '`; fuel bounds the recursion (every accepted match consumes at least
one character). -/
def scanSubAux (m : List Char → Option (List Char)) : Nat → List Char → List Char
  | 0, cs => cs
  | _ + 1, [] => []
  | fuel + 1, c :: rest =>
    match m (c :: rest) with
    | some rem => ' ' :: scanSubAux m fuel rem
    | none => c :: scanSubAux m fuel rest

/-- Substitution `re.sub(pattern, ' ', addr)` for an unanchored unit pattern. -/
def scanSub (m : List Char → Option (List Char)) (cs : List Char) : List Char :=
  scanSubAux m cs.length cs

/-- Suffix matcher for `\s*-\s*\d+\s*$`. -/
def dashNumSuffix (cs : List Char) : Bool :=
  match cs.dropWhile pyWs with
  | [] => false
  | c :: rest =>
    if c = '-' then
      let cs2 := rest.dropWhile pyWs
      !(cs2.takeWhile Char.isDigit).isEmpty &&
        ((cs2.dropWhile Char.isDigit).dropWhile pyWs).isEmpty
    else false

/-- Suffix matcher for `\s+\d+\s*$` (the trailing-number pattern). -/
def trailingNumSuffix (cs : List Char) : Bool :=
  match cs with
  | [] => false
  | c :: _ =>
    pyWs c &&
      (let cs2 := cs.dropWhile pyWs
       !(cs2.takeWhile Char.isDigit).isEmpty &&
         ((cs2.dropWhile Char.isDigit).dropWhile pyWs).isEmpty)

/-- Collapse every whitespace run to a single space
(`re.sub(r'\s+', ' ', addr)`). -/
def collapseWsGo : Bool → List Char → List Char
  | _, [] => []
  | prevWs, c :: rest =>
    if pyWs c then
      if prevWs then collapseWsGo true rest else ' ' :: collapseWsGo true rest
    else c :: collapseWsGo false rest

/-- Python `str.rstrip(',')`: drop trailing commas only. -/
def rstripCommas (cs : List Char) : List Char :=
  (cs.reverse.dropWhile (fun c => c = ',')).reverse

/-- The body of `geocode_permits.clean_address_for_geocoding` on a
non-empty string: strip, drop a trailing postal code, drop a trailing
Vancouver/BC suffix, substitute the unit patterns in their listed order,
collapse whitespace and strip, drop trailing commas and strip again. -/
def cleanCore (s : String) : List Char :=
  let a0 := pyStripList s.toList
  let a1 := subEnd postalSuffix [] a0
  let a2 := subEnd vancouverBCSuffix [] a1
  let a3 := subEnd vancouverBritishColumbiaSuffix [] a2
  let a4 := scanSub hashUnitAt a3
  let a5 := scanSub (kwUnitAt "unit".toList false) a4
  let a6 := scanSub (kwUnitAt "suite".toList false) a5
  let a7 := scanSub (kwUnitAt "apt".toList true) a6
  let a8 := subEnd dashNumSuffix [' '] a7
  let a9 := subEnd trailingNumSuffix [' '] a8
  let b := pyStripList (collapseWsGo false a9)
  pyStripList (rstripCommas b)

/-- Function `geocode_permits.clean_address_for_geocoding`: `None`/empty input is
unusable (`if not address: return None`), otherwise the cleaning
pipeline's result. -/
def clean_address_for_geocoding (address : Option String) : Option String :=
  match address with
  | none => none
  | some s => if s = "" then none else some (String.mk (cleanCore s))

end GeocodePermits

/-- Outcome of one Nominatim request: a parsed candidate list, or a
network/parsing failure (`requests` exception or bad JSON). -/
inductive NetResult
  | ok (data : List (ℚ × ℚ))
  | err
deriving DecidableEq

namespace GeocodePermits

open Database (Row DB GStatus)

/-! ### `geocode_permits.py` — Geocode Client and Orchestrator

The network is an oracle `net : String → NetResult` mapping the full query
string to the provider's (already JSON-parsed) candidate list.  The client
is embedded together with a count of requests that actually reach the
network, so that caching/throttling claims are statable. -/

/-- The British Columbia bounding box test of `geocode_address`:
`48.0 <= lat <= 60.5 and -140.0 <= lon <= -114.0` (60.5 is the rational
121/2). -/
def inBC (lat lon : ℚ) : Bool :=
  decide (48 ≤ lat) && decide (lat ≤ mkRat 121 2) &&
  decide (-140 ≤ lon) && decide (lon ≤ -114)

/-- The response-handling block of `geocode_address`: take the first
candidate if any, accept it only inside the bounding box; an out-of-box
candidate, an empty candidate list and a network/parsing error all yield
`None`. -/
def acceptCandidate : NetResult → Option (ℚ × ℚ)
  | .err => none
  | .ok [] => none
  | .ok ((lat, lon) :: _) => if inBC lat lon then some (lat, lon) else none

/-- Function `geocode_permits.geocode_address`, instrumented with the number of
network requests issued (0 or 1).  Unusable input (missing/blank address,
address cleaned to nothing) returns before the request; otherwise the
provider is queried once and the response goes through
`acceptCandidate`. -/
def geocode_address_net (net : String → NetResult) (address : Option String)
    (city : String) : Option (ℚ × ℚ) × Nat :=
  match address with
  | none => (none, 0)
  | some s =>
    if s = "" || pyStrip s = "" then (none, 0)
    else
      match clean_address_for_geocoding (some s) with
      | none => (none, 0)
      | some ca =>
        if ca = "" then (none, 0)
        else (acceptCandidate (net (ca ++ ", " ++ city ++ ", British Columbia, Canada")), 1)

/-- Function `geocode_permits.geocode_address`: the returned coordinate alone. -/
def geocode_address (net : String → NetResult) (address : Option String)
    (city : String) : Option (ℚ × ℚ) :=
  (geocode_address_net net address city).1

/-- Function `geocode_permits.is_valid_street_address`: true only when the stripped
address starts with one or more digits followed by whitespace
(`re.match(r'^\d+\s+', addr)`). -/
def is_valid_street_address (address : Option String) : Bool :=
  match address with
  | none => false
  | some s =>
    if s = "" then false
    else
      let cs := pyStripList s.toList
      !(cs.takeWhile Char.isDigit).isEmpty &&
        (match cs.dropWhile Char.isDigit with
         | c :: _ => pyWs c
         | [] => false)

/-- Fallback `city = city or 'Vancouver'` in the orchestrator loop. -/
def cityOf (r : Row) : String :=
  match r.cols.source_city with
  | none => "Vancouver"
  | some c => if c = "" then "Vancouver" else c

/-- The two `UPDATE permits SET ...` branches of the orchestrator loop: a
coordinate sets both columns and `geocode_status = 'success'`; no
coordinate sets `geocode_status = 'failed'` and leaves the coordinate
columns untouched. -/
def applyGeocodeResult (r : Row) : Option (ℚ × ℚ) × Nat → Row × Nat
  | (some (lat, lon), n) =>
    ({ r with latitude := some lat, longitude := some lon,
              geocode_status := some .success }, n)
  | (none, n) => ({ r with geocode_status := some .failed }, n)

/-- One iteration of the `geocode_all_permits` loop on a selected row:
prefer `primary_location` when it is a valid street address, fall back to
`specific_location` when that one is, and otherwise mark the row failed
without issuing any request. -/
def geocodeRowStep (net : String → NetResult) (r : Row) : Row × Nat :=
  if is_valid_street_address r.cols.primary_location then
    applyGeocodeResult r (geocode_address_net net r.cols.primary_location (cityOf r))
  else if is_valid_street_address r.cols.specific_location then
    applyGeocodeResult r (geocode_address_net net r.cols.specific_location (cityOf r))
  else ({ r with geocode_status := some .failed }, 0)

/-- The orchestrator's selection query: `geocode_status` is `'pending'` or
`NULL`, and at least one of the two location columns is non-`NULL`. -/
def needsGeocode (r : Row) : Bool :=
  (r.geocode_status == some .pending || r.geocode_status == none) &&
  (r.cols.primary_location ≠ none || r.cols.specific_location ≠ none)

/-- Process the table rows: each selected row is stepped, the others kept;
returns the new rows, the success count, the failed count, and the total
number of network requests. -/
def runRows (net : String → NetResult) : List Row → List Row × Nat × Nat × Nat
  | [] => ([], 0, 0, 0)
  | r :: rest =>
    if needsGeocode r then
      ((geocodeRowStep net r).1 :: (runRows net rest).1,
       (runRows net rest).2.1 +
         (if (geocodeRowStep net r).1.geocode_status == some .success then 1 else 0),
       (runRows net rest).2.2.1 +
         (if (geocodeRowStep net r).1.geocode_status == some .failed then 1 else 0),
       (runRows net rest).2.2.2 + (geocodeRowStep net r).2)
    else (r :: (runRows net rest).1, (runRows net rest).2)

/-- Function `geocode_permits.geocode_all_permits`: select, step every selected
row, and commit.  Returns `(success_count, failed_count, requests, db)`.
Intermediate batch commits only publish prefixes of the same final state,
so the end state is the final commit's. -/
def geocode_all_permits (net : String → NetResult) (db : DB) :
    Nat × Nat × Nat × DB :=
  ((runRows net db.current).2.1,
   (runRows net db.current).2.2.1,
   (runRows net db.current).2.2.2,
   { db with current := (runRows net db.current).1
             committed := (runRows net db.current).1 })

/-- The `UPDATE ... WHERE geocode_status = 'failed'` of
`reset_failed_geocodes`, per row. -/
def resetRow (r : Row) : Row :=
  if r.geocode_status == some .failed then
    { r with geocode_status := some .pending, latitude := none, longitude := none }
  else r

/-- Function `geocode_permits.reset_failed_geocodes`: set every failed row back to
pending with cleared coordinates, commit, and report the row count. -/
def reset_failed_geocodes (db : DB) : Nat × DB :=
  let rows := db.current.map resetRow
  ((db.current.filter (fun r => r.geocode_status == some .failed)).length,
   { db with current := rows, committed := rows })

end GeocodePermits

namespace Api

/-! ### `api.py` — on-demand geocoding with the module-level cache

`api.geocode_address` consults the process-wide `geocode_cache` dict keyed
by `address.lower().strip()`, and only on a miss issues a request.  The
state carries the cache and a count of requests that reached the
network. -/

/-- The `geocode_cache` dict plus a request counter. -/
structure ApiState where
  cache : List (String × Option (ℚ × ℚ))
  calls : Nat
deriving DecidableEq

/-- Normalization `address.lower().strip()`: the cache key. -/
def normKey (address : String) : String :=
  String.mk (pyStripList (address.toList.map pyLowerChar))

/-- The query string built by `api.geocode_address` (the raw address plus
region context; the city part is skipped for a falsy `city`). -/
def apiQuery (address : String) (city : Option String) : String :=
  match city with
  | none => address ++ ", British Columbia, Canada"
  | some c =>
    if c = "" then address ++ ", British Columbia, Canada"
    else address ++ ", " ++ c ++ ", British Columbia, Canada"

/-- Function `api.geocode_address`: blank addresses short-circuit; a cached entry
(positive or negative) is returned without a request; otherwise the
provider is queried and the outcome is cached — `None` is cached for an
empty candidate list and for an out-of-box candidate, but a network error
returns `None` without caching. -/
def geocode_address (net : String → NetResult) (st : ApiState)
    (address : String) (city : Option String) : Option (ℚ × ℚ) × ApiState :=
  if address = "" || pyStrip address = "" then (none, st)
  else
    let key := normKey address
    match st.cache.find? (fun kv => kv.1 == key) with
    | some kv => (kv.2, st)
    | none =>
      match net (apiQuery address city) with
      | .err => (none, { st with calls := st.calls + 1 })
      | .ok [] =>
        (none, { cache := st.cache ++ [(key, none)], calls := st.calls + 1 })
      | .ok ((lat, lon) :: _) =>
        if GeocodePermits.inBC lat lon then
          (some (lat, lon),
           { cache := st.cache ++ [(key, some (lat, lon))], calls := st.calls + 1 })
        else
          (none, { cache := st.cache ++ [(key, none)], calls := st.calls + 1 })

end Api

/-! ### Rendering a calendar date in each supported input format

To state "every supported format for the same date", a calendar date is
rendered in a given `strptime` format exactly as `strftime` would write it
(zero-padded numerals, title-case month names).  These renderers are the
spec-side notion of "a date written in format F"; `Database.parse_date`
remains the code-side function under test. -/

/-- A calendar date. -/
structure PyDate where
  year : Nat
  month : Nat
  day : Nat
deriving DecidableEq

/-- Title-case abbreviated month name, as `strftime('%b')` writes it. -/
def monthAbbrTitle (m : Nat) : String :=
  (["Jan", "Feb", "Mar", "Apr", "May", "Jun",
    "Jul", "Aug", "Sep", "Oct", "Nov", "Dec"].getD (m - 1) "")

/-- Title-case full month name, as `strftime('%B')` writes it. -/
def monthFullTitle (m : Nat) : String :=
  (["January", "February", "March", "April", "May", "June", "July",
    "August", "September", "October", "November", "December"].getD (m - 1) "")

/-- The date written in format `%Y-%m-%d`. -/
def renderISO (d : PyDate) : String :=
  Database.padNat 4 d.year ++ "-" ++ Database.padNat 2 d.month ++ "-" ++ Database.padNat 2 d.day

/-- The date written in format `%b %d, %Y`. -/
def renderMonDY (d : PyDate) : String :=
  monthAbbrTitle d.month ++ " " ++ Database.padNat 2 d.day ++ ", " ++ Database.padNat 4 d.year

/-- The date written in format `%b, %d, %Y`. -/
def renderMonCommaDY (d : PyDate) : String :=
  monthAbbrTitle d.month ++ ", " ++ Database.padNat 2 d.day ++ ", " ++ Database.padNat 4 d.year

/-- The date written in format `%m/%d/%Y`. -/
def renderMDY (d : PyDate) : String :=
  Database.padNat 2 d.month ++ "/" ++ Database.padNat 2 d.day ++ "/" ++ Database.padNat 4 d.year

/-- The date written in format `%d/%m/%Y`. -/
def renderDMY (d : PyDate) : String :=
  Database.padNat 2 d.day ++ "/" ++ Database.padNat 2 d.month ++ "/" ++ Database.padNat 4 d.year

/-- The date written in format `%Y/%m/%d`. -/
def renderYMDslash (d : PyDate) : String :=
  Database.padNat 4 d.year ++ "/" ++ Database.padNat 2 d.month ++ "/" ++ Database.padNat 2 d.day

/-- The date written in format `%B %d, %Y`. -/
def renderFullDY (d : PyDate) : String :=
  monthFullTitle d.month ++ " " ++ Database.padNat 2 d.day ++ ", " ++ Database.padNat 4 d.year

/-! ### The geocode-status/coordinate invariant -/

/-- Both coordinates are present and inside the bounding box. -/
def coordsInBox (r : Database.Row) : Bool :=
  match r.latitude, r.longitude with
  | some la, some lo => GeocodePermits.inBC la lo
  | _, _ => false

/-- Spec §3 invariant on one row: `geocode_status = success` exactly when
both coordinates are present and inside the configured bounding box. -/
def rowGeocodeInv (r : Database.Row) : Bool :=
  (r.geocode_status == some Database.GStatus.success) == coordsInBox r

/-- The invariant over the whole connection state (both the committed
table and the open transaction's view). -/
def dbGeocodeInv (db : Database.DB) : Bool :=
  db.committed.all rowGeocodeInv && db.current.all rowGeocodeInv

/-- No two rows share the business key (the `permit_number` unique
constraint backing `ON CONFLICT`). -/
def NodupKeys (rows : List Database.Row) : Prop :=
  (rows.map Database.Row.permit_number).Nodup

/-- The stored rows carrying a given business key. -/
def rowsFor (rows : List Database.Row) (pn : String) : List Database.Row :=
  rows.filter (fun r => r.permit_number == pn)

/-! ### Concrete fixtures used by witnesses and counterexamples -/

/-- A canonical-column record with every column `NULL`. -/
def noCols : Database.CoreCols :=
  ⟨none, none, none, none, none, none, none, none, none, none,
   none, none, none, none, none, none, none, none, none, none⟩

/-- A pending row with a given primary location and no coordinates. -/
def pendingRowAt (i : Nat) (pn : String) (primary : Option String) : Database.Row :=
  { id := i, permit_number := pn
    cols := { noCols with primary_location := primary }
    type_specific_data := [], latitude := none, longitude := none
    geocode_status := some .pending, scraped_at := 0, updated_at := 0 }

/-- A provider that always returns one in-box candidate. -/
def netBC : String → NetResult := fun _ => NetResult.ok [(49, -123)]

/-- Two pending rows with the same street address. -/
def dbTwoSame : Database.DB :=
  { committed := [pendingRowAt 1 "P1" (some "123 Main St"), pendingRowAt 2 "P2" (some "123 Main St")]
    current := [pendingRowAt 1 "P1" (some "123 Main St"), pendingRowAt 2 "P2" (some "123 Main St")]
    nextId := 3, now := 5 }

/-- An empty store. -/
def dbEmpty : Database.DB := { committed := [], current := [], nextId := 1, now := 0 }

/-- A well-formed payload with key `A`. -/
def payloadA : List (String × String) := [("permit_number", "A"), ("status", "Issued")]

/-- A second payload for the same key `A`. -/
def payloadA2 : List (String × String) := [("permit_number", "A"), ("status", "Closed")]

/-- A malformed payload: no `permit_number` at all. -/
def payloadBad : List (String × String) := [("work_description", "orphan record")]

/-- A well-formed payload with key `B`. -/
def payloadB : List (String × String) := [("permit_number", "B")]

/-- The fixture row whose only usable field is `"Street Lighting"`. -/
def rowSL : Database.Row := pendingRowAt 1 "P1" (some "Street Lighting")

/-- The fixture field map for the splitter witness. -/
def permitZoning : List (String × String) :=
  [("permit_number", "A"), ("zoning", "RS-1"), ("note", "(None)"), ("blank", "")]

/-- A one-row store holding an already-enriched permit `E`. -/
def dbEnriched : Database.DB :=
  { committed := [{ id := 7, permit_number := "E", cols := noCols
                    type_specific_data := [], latitude := some 49, longitude := some (-123)
                    geocode_status := some .success, scraped_at := 3, updated_at := 3 }]
    current := [{ id := 7, permit_number := "E", cols := noCols
                  type_specific_data := [], latitude := some 49, longitude := some (-123)
                  geocode_status := some .success, scraped_at := 3, updated_at := 3 }]
    nextId := 8, now := 9 }

/-- The re-scrape payload for the enriched permit `E`. -/
def payloadE : List (String × String) :=
  [("permit_number", "E"), ("status", "Issued"), ("extra_field", "x")]

/-! ## Claim theorems -/

/-- C2: evaluating `insert_permits_batch` at the batch
`[payloadA, payloadBad, payloadB]`: the malformed record's failure makes
`insert_permit` roll back the whole open transaction, which also discards
the already-executed insert of `A`; the final commit persists only `B`,
yet the returned count is 2.  The count therefore over-reports and the
failure is not isolated to the single bad record, contradicting both the
claim and the function's own docstring. -/
theorem batch_rollback_discards_prior_records :
    (Database.insert_permits_batch dbEmpty [payloadA, payloadBad, payloadB]).1 = 2 ∧
    ((Database.insert_permits_batch dbEmpty [payloadA, payloadBad, payloadB]).2.committed.map
        Database.Row.permit_number) = ["B"] := by decide

/-- C3 counterexample: the date 2026-02-01 written in the supported format
`%d/%m/%Y` is `"01/02/2026"`, which the earlier `%m/%d/%Y` format captures
first, yielding `"2026-01-02"` — a different canonical string than the
same date written in ISO form yields.  So not every supported format for
the same date produces the same output. -/
theorem parse_date_ambiguous_slash_counterexample :
    renderDMY ⟨2026, 2, 1⟩ = "01/02/2026" ∧
    renderISO ⟨2026, 2, 1⟩ = "2026-02-01" ∧
    Database.parse_date (renderDMY ⟨2026, 2, 1⟩) = some "2026-01-02" ∧
    Database.parse_date (renderISO ⟨2026, 2, 1⟩) = some "2026-02-01" ∧
    ("2026-01-02" : String) ≠ "2026-02-01" := by decide

/-- C3 (amended): the formats are tried in the fixed order ISO,
`%b %d, %Y`, `%b, %d, %Y`, then the numeric slash formats, and the first
match wins; every *unambiguous* supported rendering of 2026-02-01 yields
the canonical `"2026-02-01"`, while the locale-ambiguous `%d/%m/%Y`
rendering is interpreted by the earlier `%m/%d/%Y` format; unparseable,
impossible-date, and empty inputs all yield `none` rather than an
error. -/
theorem parse_date_supported_formats :
    Database.parse_date (renderISO ⟨2026, 2, 1⟩) = some "2026-02-01" ∧
    Database.parse_date (renderMonDY ⟨2026, 2, 1⟩) = some "2026-02-01" ∧
    Database.parse_date (renderMonCommaDY ⟨2026, 2, 1⟩) = some "2026-02-01" ∧
    Database.parse_date (renderMDY ⟨2026, 2, 1⟩) = some "2026-02-01" ∧
    Database.parse_date (renderYMDslash ⟨2026, 2, 1⟩) = some "2026-02-01" ∧
    Database.parse_date (renderFullDY ⟨2026, 2, 1⟩) = some "2026-02-01" ∧
    Database.parse_date (renderDMY ⟨2026, 2, 1⟩) = some "2026-01-02" ∧
    Database.parse_date "Feb 30, 2026" = none ∧
    Database.parse_date "not a date" = none ∧
    Database.parse_date "" = none ∧
    Database.parse_date "(None)" = none := by decide

/-- C6 counterexample: the cleaner does not map
`"123 Main St, Unit 4, V6B 4N9"` to `"123 Main St"`. -/
theorem clean_address_unit_postal_counterexample :
    GeocodePermits.clean_address_for_geocoding (some "123 Main St, Unit 4, V6B 4N9")
      ≠ some "123 Main St" := by decide

/-- C6 (amended): on `"123 Main St, Unit 4, V6B 4N9"` the cleaner strips
the postal code and the unit number but leaves the comma that preceded
the unit segment: the unit substitution leaves `"123 Main St, ,"`, the
single `rstrip(',')` pass removes only the final comma, and the following
whitespace strip re-exposes the inner one, so the result is
`"123 Main St,"`.  Without the separating commas the same input cleans to
`"123 Main St"` exactly. -/
theorem clean_address_unit_postal_amended :
    GeocodePermits.clean_address_for_geocoding (some "123 Main St, Unit 4, V6B 4N9")
      = some "123 Main St," ∧
    GeocodePermits.clean_address_for_geocoding (some "123 Main St Unit 4 V6B 4N9")
      = some "123 Main St" := by decide

/-- Whenever the provider's response is never accepted, the lookup yields
`none` on every address. -/
theorem geocode_address_eq_none_of (net : String → NetResult) (address : Option String)
    (city : String) (h : ∀ q, GeocodePermits.acceptCandidate (net q) = none) :
    GeocodePermits.geocode_address net address city = none := by
  cases address with
  | none => rfl
  | some s =>
    simp only [GeocodePermits.geocode_address, GeocodePermits.geocode_address_net]
    split
    · rfl
    · cases hc : GeocodePermits.clean_address_for_geocoding (some s) with
      | none => rfl
      | some ca =>
        split
        · rfl
        · simp only [h]
          split <;> rfl

/-- C5: a provider candidate outside the configured bounding box
(latitude 48.0–60.5, longitude −140.0 – −114.0) is rejected: the lookup
returns `none` on every address, exactly as it does when the provider
finds nothing at all. -/
theorem geocode_rejects_out_of_box (address : Option String) (city : String)
    (lat lon : ℚ) (rest : List (ℚ × ℚ)) (h : GeocodePermits.inBC lat lon = false) :
    GeocodePermits.geocode_address (fun _ => NetResult.ok ((lat, lon) :: rest)) address city
      = none ∧
    GeocodePermits.geocode_address (fun _ => NetResult.ok ((lat, lon) :: rest)) address city
      = GeocodePermits.geocode_address (fun _ => NetResult.ok []) address city := by
  have e1 : GeocodePermits.geocode_address (fun _ => NetResult.ok ((lat, lon) :: rest))
      address city = none :=
    geocode_address_eq_none_of _ _ _ (fun _ => by simp [GeocodePermits.acceptCandidate, h])
  have e2 : GeocodePermits.geocode_address (fun _ => NetResult.ok []) address city = none :=
    geocode_address_eq_none_of _ _ _ (fun _ => rfl)
  exact ⟨e1, e1.trans e2.symm⟩

/-- C5 witness: latitude 45.0 is outside the box, and a provider returning
it as the top candidate is treated as not-found. -/
theorem geocode_rejects_out_of_box_witness :
    GeocodePermits.inBC 45 (-123) = false ∧
    GeocodePermits.geocode_address (fun _ => NetResult.ok [((45 : ℚ), (-123 : ℚ))])
      (some "123 Main St") "Vancouver" = none :=
  ⟨by decide,
   (geocode_rejects_out_of_box (some "123 Main St") "Vancouver" 45 (-123) [] (by decide)).1⟩

/-- C7: the orchestrator's per-record address policy: use the primary
location when it passes the street-address check; otherwise the specific
location when it passes; otherwise mark the record failed with zero
network requests.  `"Street Lighting"` fails the check (no leading street
number). -/
theorem address_selection_policy (net : String → NetResult) (r : Database.Row) :
    (GeocodePermits.is_valid_street_address r.cols.primary_location = true →
      GeocodePermits.geocodeRowStep net r =
        GeocodePermits.applyGeocodeResult r
          (GeocodePermits.geocode_address_net net r.cols.primary_location
            (GeocodePermits.cityOf r))) ∧
    (GeocodePermits.is_valid_street_address r.cols.primary_location = false →
      GeocodePermits.is_valid_street_address r.cols.specific_location = true →
      GeocodePermits.geocodeRowStep net r =
        GeocodePermits.applyGeocodeResult r
          (GeocodePermits.geocode_address_net net r.cols.specific_location
            (GeocodePermits.cityOf r))) ∧
    (GeocodePermits.is_valid_street_address r.cols.primary_location = false →
      GeocodePermits.is_valid_street_address r.cols.specific_location = false →
      GeocodePermits.geocodeRowStep net r =
        ({ r with geocode_status := some Database.GStatus.failed }, 0)) ∧
    GeocodePermits.is_valid_street_address (some "Street Lighting") = false := by
  refine ⟨fun h1 => ?_, fun h1 h2 => ?_, fun h1 h2 => ?_, by decide⟩ <;>
    simp [GeocodePermits.geocodeRowStep, h1]
  · simp [h2]
  · simp [h2]

/-- C7 witness: a record whose primary location is `"Street Lighting"`
(and with no specific location) is marked failed without any network
request. -/
theorem address_selection_policy_witness :
    GeocodePermits.is_valid_street_address (some "Street Lighting") = false ∧
    GeocodePermits.geocodeRowStep netBC rowSL
      = ({ rowSL with geocode_status := some Database.GStatus.failed }, 0) :=
  ⟨by decide, (address_selection_policy netBC rowSL).2.2.1 (by decide) (by decide)⟩

/-- Every key of the splitter's core part is a canonical field name. -/
theorem mem_split_core_contains (permit : List (String × String)) (k : String) :
    k ∈ (Database.splitFields permit).1.map Prod.fst →
    Database.CORE_FIELDS.contains k = true := by
  induction permit with
  | nil => simp [Database.splitFields]
  | cons kv rest ih =>
    obtain ⟨k0, v0⟩ := kv
    simp only [Database.splitFields]
    by_cases h0 : Database.CORE_FIELDS.contains k0 = true
    · rw [if_pos h0]
      simp only [List.map_cons, List.mem_cons]
      rintro (rfl | hk)
      · exact h0
      · exact ih hk
    · rw [if_neg h0]
      split
      · exact ih
      · exact ih

/-- No key of the splitter's extension part is a canonical field name. -/
theorem mem_split_ext_not_contains (permit : List (String × String)) (k : String) :
    k ∈ (Database.splitFields permit).2.map Prod.fst →
    Database.CORE_FIELDS.contains k = false := by
  induction permit with
  | nil => simp [Database.splitFields]
  | cons kv rest ih =>
    obtain ⟨k0, v0⟩ := kv
    simp only [Database.splitFields]
    by_cases h0 : Database.CORE_FIELDS.contains k0 = true
    · rw [if_pos h0]
      exact ih
    · rw [if_neg h0]
      split
      · simp only [List.map_cons, List.mem_cons]
        rintro (rfl | hk)
        · exact Bool.not_eq_true _ |>.mp h0
        · exact ih hk
      · exact ih

/-- A canonical-named input field lands in the core part. -/
theorem mem_split_core_of (permit : List (String × String)) (k v : String)
    (hm : (k, v) ∈ permit) (hc : Database.CORE_FIELDS.contains k = true) :
    k ∈ (Database.splitFields permit).1.map Prod.fst := by
  induction permit with
  | nil => cases hm
  | cons kv rest ih =>
    obtain ⟨k0, v0⟩ := kv
    simp only [Database.splitFields]
    rcases List.mem_cons.mp hm with heq | hk
    · obtain ⟨rfl, rfl⟩ := Prod.mk.injEq .. ▸ heq
      rw [if_pos hc]
      simp
    · by_cases h0 : Database.CORE_FIELDS.contains k0 = true
      · rw [if_pos h0]
        simp only [List.map_cons, List.mem_cons]
        exact Or.inr (ih hk)
      · rw [if_neg h0]
        split
        · exact ih hk
        · exact ih hk

/-- A non-canonical input field with a non-empty, non-sentinel value lands
in the extension part verbatim. -/
theorem mem_split_ext_of (permit : List (String × String)) (k v : String)
    (hm : (k, v) ∈ permit) (hc : Database.CORE_FIELDS.contains k = false)
    (h1 : v ≠ "") (h2 : v ≠ "(None)") :
    (k, v) ∈ (Database.splitFields permit).2 := by
  induction permit with
  | nil => cases hm
  | cons kv rest ih =>
    obtain ⟨k0, v0⟩ := kv
    simp only [Database.splitFields]
    rcases List.mem_cons.mp hm with heq | hk
    · obtain ⟨rfl, rfl⟩ := Prod.mk.injEq .. ▸ heq
      rw [if_neg (by rw [hc]; exact Bool.false_ne_true)]
      rw [if_pos (by simp [h1, h2])]
      simp
    · by_cases h0 : Database.CORE_FIELDS.contains k0 = true
      · rw [if_pos h0]
        exact ih hk
      · rw [if_neg h0]
        split
        · exact List.mem_cons_of_mem _ (ih hk)
        · exact ih hk

/-- Date normalization inside `prepare_permit_data` keeps the core key set
of the split. -/
theorem prepare_core_keys (permit : List (String × String)) :
    (Database.prepare_permit_data permit).1.map Prod.fst =
      (Database.splitFields permit).1.map Prod.fst := by
  simp [Database.prepare_permit_data, List.map_map, Function.comp]

/-- C4: the Schema Splitter routes canonical-named fields to core and
every other non-empty, non-`"(None)"` field to the extension map; the
two key sets are disjoint, and together they cover every input field
whose value is neither empty nor the no-data sentinel. -/
theorem prepare_permit_data_splits_fields (permit : List (String × String)) (k v : String) :
    (Database.CORE_FIELDS.contains k = true → (k, v) ∈ permit →
      k ∈ (Database.prepare_permit_data permit).1.map Prod.fst) ∧
    (Database.CORE_FIELDS.contains k = false → (k, v) ∈ permit → v ≠ "" → v ≠ "(None)" →
      (k, v) ∈ (Database.prepare_permit_data permit).2) ∧
    (k ∈ (Database.prepare_permit_data permit).1.map Prod.fst →
      k ∉ (Database.prepare_permit_data permit).2.map Prod.fst) ∧
    ((k, v) ∈ permit → v ≠ "" → v ≠ "(None)" →
      k ∈ (Database.prepare_permit_data permit).1.map Prod.fst ∨
      k ∈ (Database.prepare_permit_data permit).2.map Prod.fst) := by
  refine ⟨?_, ?_, ?_, ?_⟩
  · intro hc hm
    rw [prepare_core_keys]
    exact mem_split_core_of permit k v hm hc
  · intro hc hm h1 h2
    exact mem_split_ext_of permit k v hm hc h1 h2
  · intro hcore hext
    have c1 := mem_split_core_contains permit k (prepare_core_keys permit ▸ hcore)
    have c2 := mem_split_ext_not_contains permit k hext
    rw [c1] at c2
    cases c2
  · intro hm h1 h2
    by_cases hc : Database.CORE_FIELDS.contains k = true
    · exact Or.inl (prepare_core_keys permit ▸ mem_split_core_of permit k v hm hc)
    · refine Or.inr ?_
      have := mem_split_ext_of permit k v hm (Bool.not_eq_true _ |>.mp hc) h1 h2
      exact List.mem_map_of_mem Prod.fst this

/-- C4 witness: a non-canonical field (`zoning`) with real data is routed
to the extension map of the prepared record. -/
theorem prepare_permit_data_splits_fields_witness :
    Database.CORE_FIELDS.contains "zoning" = false ∧
    ("zoning", "RS-1") ∈ permitZoning ∧
    ("zoning", "RS-1") ∈ (Database.prepare_permit_data permitZoning).2 :=
  ⟨by decide, by decide,
   (prepare_permit_data_splits_fields permitZoning "zoning" "RS-1").2.1
     (by decide) (by decide) (by decide) (by decide)⟩

/-- A found row matches the key and belongs to the table. -/
theorem findRow_mem {rows : List Database.Row} {pn : String} {r : Database.Row}
    (h : Database.findRow rows pn = some r) : r.permit_number = pn ∧ r ∈ rows := by
  unfold Database.findRow at h
  refine ⟨?_, List.mem_of_find?_eq_some h⟩
  have := List.find?_some h
  simpa using this

/-- A missing key means no row of the table carries it. -/
theorem findRow_none {rows : List Database.Row} {pn : String}
    (h : Database.findRow rows pn = none) : ∀ x ∈ rows, x.permit_number ≠ pn := by
  unfold Database.findRow at h
  intro x hx
  have := List.find?_eq_none.mp h x hx
  simpa using this

/-- Replacing by a key that occurs nowhere is the identity. -/
theorem map_replace_id (rows : List Database.Row) (pn : String) (r2 : Database.Row)
    (h : ∀ x ∈ rows, x.permit_number ≠ pn) :
    rows.map (fun x => if x.permit_number == pn then r2 else x) = rows := by
  induction rows with
  | nil => rfl
  | cons y ys ih =>
    have hy : (y.permit_number == pn) = false :=
      beq_eq_false_iff_ne.mpr (h y (List.mem_cons_self y ys))
    simp only [List.map_cons, hy, Bool.false_eq_true, if_false]
    rw [ih (fun x hx => h x (List.mem_cons_of_mem y hx))]

/-- A key that occurs nowhere filters to the empty list. -/
theorem rowsFor_nil (rows : List Database.Row) (pn : String)
    (h : ∀ x ∈ rows, x.permit_number ≠ pn) : rowsFor rows pn = [] := by
  refine List.filter_eq_nil_iff.mpr (fun x hx => ?_)
  simpa using h x hx

/-- Point lookup after the keyed replacement finds the replacement. -/
theorem findRow_replace (rows : List Database.Row) (pn : String) (r r2 : Database.Row)
    (hf : Database.findRow rows pn = some r) (h2 : r2.permit_number = pn) :
    Database.findRow
      (rows.map (fun x => if x.permit_number == pn then r2 else x)) pn = some r2 := by
  induction rows with
  | nil => cases hf
  | cons y ys ih =>
    by_cases hy : y.permit_number = pn
    · have hb : (y.permit_number == pn) = true := beq_iff_eq.mpr hy
      simp only [List.map_cons, hb, if_true]
      exact List.find?_cons_of_pos _ (by simpa using h2)
    · have hb : (y.permit_number == pn) = false := beq_eq_false_iff_ne.mpr hy
      simp only [List.map_cons, hb, Bool.false_eq_true, if_false]
      have hf' : Database.findRow ys pn = some r := by
        unfold Database.findRow at hf ⊢
        rwa [List.find?_cons_of_neg _ (by simpa using hy)] at hf
      unfold Database.findRow
      rw [List.find?_cons_of_neg _ (by simpa using hy)]
      exact ih hf'

/-- The keyed replacement does not change the key column. -/
theorem keys_replace (rows : List Database.Row) (pn : String) (r2 : Database.Row)
    (h2 : r2.permit_number = pn) :
    (rows.map (fun x => if x.permit_number == pn then r2 else x)).map
        Database.Row.permit_number
      = rows.map Database.Row.permit_number := by
  rw [List.map_map]
  refine List.map_congr_left (fun x _ => ?_)
  by_cases hx : x.permit_number = pn
  · simp [Function.comp, beq_iff_eq.mpr hx, h2, hx]
  · simp [Function.comp, beq_eq_false_iff_ne.mpr hx]

/-- The keyed replacement keeps the unique-key invariant. -/
theorem NodupKeys_replace (rows : List Database.Row) (pn : String) (r2 : Database.Row)
    (h2 : r2.permit_number = pn) (hnd : NodupKeys rows) :
    NodupKeys (rows.map (fun x => if x.permit_number == pn then r2 else x)) := by
  unfold NodupKeys at hnd ⊢
  rwa [keys_replace rows pn r2 h2]

/-- With unique keys, replacing the found row leaves exactly one row for
the key: the replacement. -/
theorem rowsFor_replace_single (rows : List Database.Row) (pn : String)
    (r r2 : Database.Row) (hnd : NodupKeys rows)
    (hf : Database.findRow rows pn = some r) (h2 : r2.permit_number = pn) :
    rowsFor (rows.map (fun x => if x.permit_number == pn then r2 else x)) pn = [r2] := by
  induction rows with
  | nil => cases hf
  | cons y ys ih =>
    have hnd' : NodupKeys ys := (List.nodup_cons.mp hnd).2
    by_cases hy : y.permit_number = pn
    · have hb : (y.permit_number == pn) = true := beq_iff_eq.mpr hy
      simp only [List.map_cons, hb, if_true]
      have hnotin : ∀ x ∈ ys, x.permit_number ≠ pn := by
        intro x hx hxe
        exact (List.nodup_cons.mp hnd).1 (hy ▸ hxe ▸ List.mem_map_of_mem _ hx)
      rw [map_replace_id ys pn r2 hnotin]
      unfold rowsFor
      rw [List.filter_cons_of_pos (by simpa using h2)]
      have hnil : List.filter (fun r => r.permit_number == pn) ys = [] :=
        rowsFor_nil ys pn hnotin
      rw [hnil]
    · have hb : (y.permit_number == pn) = false := beq_eq_false_iff_ne.mpr hy
      simp only [List.map_cons, hb, Bool.false_eq_true, if_false]
      have hf' : Database.findRow ys pn = some r := by
        unfold Database.findRow at hf ⊢
        rwa [List.find?_cons_of_neg _ (by simpa using hy)] at hf
      unfold rowsFor
      rw [List.filter_cons_of_neg (by simpa using hy)]
      exact ih hnd' hf'

/-- Point lookup skips a prefix without the key. -/
theorem findRow_append_of_none (l1 l2 : List Database.Row) (pn : String)
    (h : Database.findRow l1 pn = none) :
    Database.findRow (l1 ++ l2) pn = Database.findRow l2 pn := by
  induction l1 with
  | nil => rfl
  | cons y ys ih =>
    have hy := findRow_none h y (List.mem_cons_self y ys)
    have h' : Database.findRow ys pn = none := by
      unfold Database.findRow at h ⊢
      rwa [List.find?_cons_of_neg _ (by simpa using hy)] at h
    unfold Database.findRow at ih ⊢
    rw [List.cons_append, List.find?_cons_of_neg _ (by simpa using hy)]
    exact ih h'

/-- The resulting connection state of `insert_permit` when the key is
already present. -/
theorem insert_permit_found_state (db : Database.DB) (p : List (String × String))
    (pn : String) (r : Database.Row)
    (hp : (Database.buildParams p).permit_number = some pn)
    (hf : Database.findRow db.current pn = some r) :
    (Database.insert_permit db p).2 =
      { db with
          current := db.current.map
            (fun x => if x.permit_number == pn
                      then Database.updRow r (Database.buildParams p) db.now else x)
          now := db.now + 1 } := by
  unfold Database.insert_permit
  dsimp only
  rw [hp]
  dsimp only
  rw [hf]

/-- The resulting connection state of `insert_permit` when the key is
absent. -/
theorem insert_permit_fresh_state (db : Database.DB) (p : List (String × String))
    (pn : String)
    (hp : (Database.buildParams p).permit_number = some pn)
    (hf : Database.findRow db.current pn = none) :
    (Database.insert_permit db p).2 =
      { db with
          current := db.current ++ [Database.freshRow db (Database.buildParams p) pn]
          nextId := db.nextId + 1, now := db.now + 1 } := by
  unfold Database.insert_permit
  dsimp only
  rw [hp]
  dsimp only
  rw [hf]

/-- Upserting a payload whose key is already in the table leaves exactly
one row for that key: the found row with all canonical columns, the
extension map and `updated_at` overwritten. -/
theorem upsert_into_found (db : Database.DB) (p : List (String × String))
    (pn : String) (r : Database.Row)
    (hp : (Database.buildParams p).permit_number = some pn)
    (hf : Database.findRow db.current pn = some r)
    (hnd : NodupKeys db.current) :
    rowsFor (Database.insert_permit db p).2.current pn
      = [Database.updRow r (Database.buildParams p) db.now] := by
  rw [insert_permit_found_state db p pn r hp hf]
  exact rowsFor_replace_single db.current pn r _ hnd hf (findRow_mem hf).1

/-- C1: upserting two payloads with the same `permit_number` leaves
exactly one stored row for that key, whose canonical columns, extension
map and `updated_at` all come from the second payload; and when the key
was absent, the first upsert created a fresh pending row. -/
theorem upsert_same_key_replaces_whole_record
    (db : Database.DB) (p1 p2 : List (String × String)) (pn : String)
    (h1 : (Database.buildParams p1).permit_number = some pn)
    (h2 : (Database.buildParams p2).permit_number = some pn)
    (hnd : NodupKeys db.current) :
    (∃ r : Database.Row,
      rowsFor (Database.insert_permit (Database.insert_permit db p1).2 p2).2.current pn
          = [r] ∧
        r.cols = (Database.buildParams p2).cols ∧
        r.type_specific_data = (Database.buildParams p2).type_specific_data ∧
        r.updated_at = (Database.insert_permit db p1).2.now) ∧
    (Database.findRow db.current pn = none →
      ∃ r0 : Database.Row,
        Database.findRow (Database.insert_permit db p1).2.current pn = some r0 ∧
          r0.scraped_at = db.now ∧ r0.latitude = none ∧ r0.longitude = none ∧
          r0.geocode_status = some Database.GStatus.pending) := by
  cases hf : Database.findRow db.current pn with
  | some r0 =>
    have e1 := insert_permit_found_state db p1 pn r0 h1 hf
    have hf1 : Database.findRow (Database.insert_permit db p1).2.current pn
        = some (Database.updRow r0 (Database.buildParams p1) db.now) := by
      rw [e1]
      exact findRow_replace db.current pn r0 _ hf (findRow_mem hf).1
    have hnd1 : NodupKeys (Database.insert_permit db p1).2.current := by
      rw [e1]
      exact NodupKeys_replace db.current pn _ (findRow_mem hf).1 hnd
    refine ⟨⟨Database.updRow (Database.updRow r0 (Database.buildParams p1) db.now)
        (Database.buildParams p2) (Database.insert_permit db p1).2.now,
      upsert_into_found _ p2 pn _ h2 hf1 hnd1, rfl, rfl, rfl⟩, ?_⟩
    intro hnone
    simp at hnone
  | none =>
    have e1 := insert_permit_fresh_state db p1 pn h1 hf
    have hf1 : Database.findRow (Database.insert_permit db p1).2.current pn
        = some (Database.freshRow db (Database.buildParams p1) pn) := by
      rw [e1]
      rw [findRow_append_of_none db.current _ pn hf]
      unfold Database.findRow
      exact List.find?_cons_of_pos _ (by simp [Database.freshRow])
    have hnd1 : NodupKeys (Database.insert_permit db p1).2.current := by
      rw [e1]
      unfold NodupKeys
      rw [List.map_append]
      refine List.Nodup.append hnd (by simp) ?_
      intro a ha hb
      simp only [List.map_cons, List.map_nil, List.mem_cons, List.not_mem_nil,
        or_false] at hb
      rcases List.mem_map.mp ha with ⟨x, hx, rfl⟩
      exact findRow_none hf x hx (by simpa [Database.freshRow] using hb)
    refine ⟨⟨Database.updRow (Database.freshRow db (Database.buildParams p1) pn)
        (Database.buildParams p2) (Database.insert_permit db p1).2.now,
      upsert_into_found _ p2 pn _ h2 hf1 hnd1, rfl, rfl, rfl⟩, ?_⟩
    intro _
    exact ⟨Database.freshRow db (Database.buildParams p1) pn, hf1, rfl, rfl, rfl, rfl⟩

/-- C1 witness: two upserts of key `A` into the empty store leave exactly
one row, carrying the second payload's columns. -/
theorem upsert_same_key_replaces_whole_record_witness :
    (Database.buildParams payloadA).permit_number = some "A" ∧
    (∃ r : Database.Row,
      rowsFor (Database.insert_permit (Database.insert_permit dbEmpty payloadA).2
          payloadA2).2.current "A" = [r] ∧
        r.cols = (Database.buildParams payloadA2).cols ∧
        r.type_specific_data = (Database.buildParams payloadA2).type_specific_data ∧
        r.updated_at = (Database.insert_permit dbEmpty payloadA).2.now) ∧
    (Database.findRow dbEmpty.current "A" = none →
      ∃ r0 : Database.Row,
        Database.findRow (Database.insert_permit dbEmpty payloadA).2.current "A" = some r0 ∧
          r0.scraped_at = dbEmpty.now ∧ r0.latitude = none ∧ r0.longitude = none ∧
          r0.geocode_status = some Database.GStatus.pending) :=
  ⟨by decide,
   (upsert_same_key_replaces_whole_record dbEmpty payloadA payloadA2 "A"
      (by decide) (by decide) List.nodup_nil).1,
   (upsert_same_key_replaces_whole_record dbEmpty payloadA payloadA2 "A"
      (by decide) (by decide) List.nodup_nil).2⟩

/-- C10: an upsert that hits an existing key leaves `latitude`,
`longitude`, `geocode_status` and `scraped_at` untouched (they are not in
the `DO UPDATE SET` list): only the canonical columns, the extension map
and `updated_at` change. -/
theorem upsert_preserves_geocode_columns (db : Database.DB)
    (p : List (String × String)) (pn : String) (r : Database.Row)
    (hp : (Database.buildParams p).permit_number = some pn)
    (hf : Database.findRow db.current pn = some r) :
    ∃ r2 : Database.Row,
      Database.findRow (Database.insert_permit db p).2.current pn = some r2 ∧
        r2.latitude = r.latitude ∧ r2.longitude = r.longitude ∧
        r2.geocode_status = r.geocode_status ∧ r2.scraped_at = r.scraped_at ∧
        r2.id = r.id ∧
        r2.cols = (Database.buildParams p).cols ∧
        r2.type_specific_data = (Database.buildParams p).type_specific_data ∧
        r2.updated_at = db.now := by
  refine ⟨Database.updRow r (Database.buildParams p) db.now, ?_,
    rfl, rfl, rfl, rfl, rfl, rfl, rfl, rfl⟩
  rw [insert_permit_found_state db p pn r hp hf]
  exact findRow_replace db.current pn r _ hf (findRow_mem hf).1

/-- C10 witness: re-upserting the enriched permit `E` keeps its
coordinates, its `success` status and its original `scraped_at`. -/
theorem upsert_preserves_geocode_columns_witness :
    (Database.buildParams payloadE).permit_number = some "E" ∧
    (∃ r2 : Database.Row,
      Database.findRow (Database.insert_permit dbEnriched payloadE).2.current "E" = some r2 ∧
        r2.latitude = some 49 ∧ r2.longitude = some (-123) ∧
        r2.geocode_status = some Database.GStatus.success ∧ r2.scraped_at = 3 ∧
        r2.id = 7 ∧
        r2.cols = (Database.buildParams payloadE).cols ∧
        r2.type_specific_data = (Database.buildParams payloadE).type_specific_data ∧
        r2.updated_at = 9) :=
  ⟨by decide,
   upsert_preserves_geocode_columns dbEnriched payloadE "E"
     { id := 7, permit_number := "E", cols := noCols
       type_specific_data := [], latitude := some 49, longitude := some (-123)
       geocode_status := some .success, scraped_at := 3, updated_at := 3 }
     (by decide) (by decide)⟩

/-- An accepted candidate is inside the bounding box. -/
theorem inBC_of_acceptCandidate (res : NetResult) (la lo : ℚ)
    (h : GeocodePermits.acceptCandidate res = some (la, lo)) :
    GeocodePermits.inBC la lo = true := by
  cases res with
  | err => simp [GeocodePermits.acceptCandidate] at h
  | ok data =>
    cases data with
    | nil => simp [GeocodePermits.acceptCandidate] at h
    | cons hd tl =>
      obtain ⟨lat, lon⟩ := hd
      simp only [GeocodePermits.acceptCandidate] at h
      split at h
      · cases h
        assumption
      · cases h

/-- A coordinate returned by the geocode lookup is inside the bounding
box. -/
theorem geocode_some_inBC (net : String → NetResult) (a : Option String)
    (c : String) (la lo : ℚ)
    (h : (GeocodePermits.geocode_address_net net a c).1 = some (la, lo)) :
    GeocodePermits.inBC la lo = true := by
  cases a with
  | none => simp [GeocodePermits.geocode_address_net] at h
  | some s =>
    simp only [GeocodePermits.geocode_address_net] at h
    split at h
    · simp at h
    · cases hc : GeocodePermits.clean_address_for_geocoding (some s) with
      | none => rw [hc] at h; simp at h
      | some ca =>
        rw [hc] at h
        dsimp only at h
        split at h
        · simp at h
        · exact inBC_of_acceptCandidate _ la lo (by simpa using h)

/-- A geocode-result update on a row with no in-box coordinates keeps the
status/coordinate invariant: coordinates are written only together with
`success`, and they are in-box by `geocode_some_inBC`. -/
theorem applyResult_inv (r : Database.Row) (res : Option (ℚ × ℚ) × Nat)
    (hcb : coordsInBox r = false)
    (hin : ∀ la lo, res.1 = some (la, lo) → GeocodePermits.inBC la lo = true) :
    rowGeocodeInv (GeocodePermits.applyGeocodeResult r res).1 = true := by
  rcases res with ⟨res, n⟩
  rcases res with _ | ⟨la, lo⟩
  · show rowGeocodeInv { r with geocode_status := some Database.GStatus.failed } = true
    unfold rowGeocodeInv
    have h1 : coordsInBox { r with geocode_status := some Database.GStatus.failed }
        = coordsInBox r := rfl
    rw [h1, hcb]
    rfl
  · show rowGeocodeInv { r with latitude := some la, longitude := some lo, geocode_status := some Database.GStatus.success } = true
    unfold rowGeocodeInv
    have h1 : coordsInBox { r with latitude := some la, longitude := some lo, geocode_status := some Database.GStatus.success } = GeocodePermits.inBC la lo := rfl
    rw [h1, hin la lo rfl]
    rfl

/-- Stepping a selected (pending or unset) row keeps the invariant. -/
theorem rowStep_inv (net : String → NetResult) (r : Database.Row)
    (hr : rowGeocodeInv r = true) (hsel : GeocodePermits.needsGeocode r = true) :
    rowGeocodeInv (GeocodePermits.geocodeRowStep net r).1 = true := by
  have hns : (r.geocode_status == some Database.GStatus.success) = false := by
    have hp := (Bool.and_eq_true _ _ |>.mp hsel).1
    rcases Bool.or_eq_true _ _ |>.mp hp with h | h
    · rw [beq_iff_eq.mp h]
      rfl
    · rw [beq_iff_eq.mp h]
      rfl
  have hcb : coordsInBox r = false := by
    unfold rowGeocodeInv at hr
    rw [hns] at hr
    simpa using hr
  unfold GeocodePermits.geocodeRowStep
  split
  · exact applyResult_inv r _ hcb (fun la lo h => geocode_some_inBC net _ _ la lo h)
  · split
    · exact applyResult_inv r _ hcb (fun la lo h => geocode_some_inBC net _ _ la lo h)
    · exact applyResult_inv r (none, 0) hcb (by simp)

/-- Processing the table keeps the invariant on every row. -/
theorem runRows_inv (net : String → NetResult) (rows : List Database.Row)
    (h : rows.all rowGeocodeInv = true) :
    (GeocodePermits.runRows net rows).1.all rowGeocodeInv = true := by
  induction rows with
  | nil => rfl
  | cons r rest ih =>
    rw [List.all_cons] at h
    obtain ⟨h1, h2⟩ := Bool.and_eq_true _ _ |>.mp h
    unfold GeocodePermits.runRows
    split
    · rename_i hsel
      rw [List.all_cons]
      exact Bool.and_eq_true _ _ |>.mpr ⟨rowStep_inv net r h1 hsel, ih h2⟩
    · rw [List.all_cons]
      exact Bool.and_eq_true _ _ |>.mpr ⟨h1, ih h2⟩

/-- Resetting a row keeps the invariant. -/
theorem resetRow_inv (r : Database.Row) (hr : rowGeocodeInv r = true) :
    rowGeocodeInv (GeocodePermits.resetRow r) = true := by
  unfold GeocodePermits.resetRow
  split
  · rfl
  · exact hr

/-- Mapping an invariant-preserving function over the table keeps the
whole-table invariant. -/
theorem all_map_inv (f : Database.Row → Database.Row) (rows : List Database.Row)
    (hf : ∀ r ∈ rows, rowGeocodeInv r = true → rowGeocodeInv (f r) = true)
    (h : rows.all rowGeocodeInv = true) :
    (rows.map f).all rowGeocodeInv = true := by
  rw [List.all_eq_true] at h ⊢
  intro x hx
  rcases List.mem_map.mp hx with ⟨r, hr, rfl⟩
  exact hf r hr (h r hr)

/-- The state of `insert_permit` on a payload without the business key:
the failed statement makes the whole open transaction roll back. -/
theorem insert_permit_none_state (db : Database.DB) (p : List (String × String))
    (hp : (Database.buildParams p).permit_number = none) :
    (Database.insert_permit db p).2 =
      { db with current := db.committed, now := db.now + 1 } := by
  unfold Database.insert_permit
  dsimp only
  rw [hp]

/-- C9: the invariant `geocode_status = success ⇔ coordinates present and
in-box` holds for both the committed table and the open transaction, and
is preserved by a full enrichment run, by the failed-row reset, and by any
upsert. -/
theorem geocode_status_invariant_preserved (db : Database.DB)
    (net : String → NetResult) (permit : List (String × String))
    (h : dbGeocodeInv db = true) :
    dbGeocodeInv (GeocodePermits.geocode_all_permits net db).2.2.2 = true ∧
    dbGeocodeInv (GeocodePermits.reset_failed_geocodes db).2 = true ∧
    dbGeocodeInv (Database.insert_permit db permit).2 = true := by
  obtain ⟨hcom, hcur⟩ := Bool.and_eq_true _ _ |>.mp h
  refine ⟨?_, ?_, ?_⟩
  · show (dbGeocodeInv { db with current := (GeocodePermits.runRows net db.current).1, committed := (GeocodePermits.runRows net db.current).1 }) = true
    unfold dbGeocodeInv
    rw [runRows_inv net db.current hcur]
    rfl
  · show (dbGeocodeInv { db with current := db.current.map GeocodePermits.resetRow, committed := db.current.map GeocodePermits.resetRow }) = true
    unfold dbGeocodeInv
    rw [all_map_inv _ db.current (fun r _ => resetRow_inv r) hcur]
    rfl
  · cases hpn : (Database.buildParams permit).permit_number with
    | none =>
      rw [insert_permit_none_state db permit hpn]
      unfold dbGeocodeInv
      rw [hcom]
      rfl
    | some pn =>
      cases hf : Database.findRow db.current pn with
      | some r =>
        rw [insert_permit_found_state db permit pn r hpn hf]
        unfold dbGeocodeInv
        have hall : (db.current.map
            (fun x => if x.permit_number == pn
                      then Database.updRow r (Database.buildParams permit) db.now
                      else x)).all rowGeocodeInv = true := by
          refine all_map_inv _ db.current (fun x hx hxinv => ?_) hcur
          split
          · have hrinv : rowGeocodeInv r = true :=
              List.all_eq_true.mp hcur r (findRow_mem hf).2
            exact hrinv
          · exact hxinv
        rw [hall, hcom]
        rfl
      | none =>
        rw [insert_permit_fresh_state db permit pn hpn hf]
        unfold dbGeocodeInv
        rw [List.all_append]
        rw [hcur, hcom]
        rfl

/-- C9 witness: a concrete pending store satisfies the invariant, and it
still holds after an enrichment run, after a reset, and after an
upsert. -/
theorem geocode_status_invariant_preserved_witness :
    dbGeocodeInv dbTwoSame = true ∧
    (dbGeocodeInv (GeocodePermits.geocode_all_permits netBC dbTwoSame).2.2.2 = true ∧
     dbGeocodeInv (GeocodePermits.reset_failed_geocodes dbTwoSame).2 = true ∧
     dbGeocodeInv (Database.insert_permit dbTwoSame payloadA).2 = true) :=
  ⟨by decide, geocode_status_invariant_preserved dbTwoSame netBC payloadA (by decide)⟩

/-- C8 counterexample: within one pipeline enrichment run, two records
with the same (already normalized) address trigger two network requests,
not one — `geocode_permits.geocode_address` consults no cache. -/
theorem pipeline_geocode_no_cache_counterexample :
    (GeocodePermits.geocode_all_permits netBC dbTwoSame).2.2.1 = 2 ∧
    (GeocodePermits.geocode_all_permits netBC dbTwoSame).2.2.1 ≠ 1 := by decide

/-- Lookup `find?` skips a prefix in which it finds nothing. -/
theorem find?_append_of_none {α : Type} (p : α → Bool) (l1 l2 : List α)
    (h : l1.find? p = none) : (l1 ++ l2).find? p = l2.find? p := by
  induction l1 with
  | nil => rfl
  | cons a as ih =>
    have ha : ¬p a = true := by
      have := List.find?_eq_none.mp h a (List.mem_cons_self a as)
      simpa using this
    rw [List.cons_append, List.find?_cons_of_neg _ ha]
    refine ih ?_
    rw [List.find?_cons_of_neg _ ha] at h
    exact h

/-- The state after an uncached `api.geocode_address` call whose request
does not error: one request is issued and its outcome — positive or
negative — is stored under the normalized key. -/
theorem api_first_call_state (net : String → NetResult) (st : Api.ApiState)
    (a1 : String) (c1 : Option String) (h1 : pyStrip a1 ≠ "")
    (hc : st.cache.find? (fun kv => kv.1 == Api.normKey a1) = none)
    (hne : net (Api.apiQuery a1 c1) ≠ NetResult.err) :
    Api.geocode_address net st a1 c1 =
      (GeocodePermits.acceptCandidate (net (Api.apiQuery a1 c1)),
       { cache := st.cache ++
           [(Api.normKey a1, GeocodePermits.acceptCandidate (net (Api.apiQuery a1 c1)))]
         calls := st.calls + 1 }) := by
  have ha1 : a1 ≠ "" := fun e => h1 (by rw [e]; rfl)
  unfold Api.geocode_address
  rw [if_neg (by simp [ha1, h1])]
  dsimp only
  rw [hc]
  cases hn : net (Api.apiQuery a1 c1) with
  | err => exact absurd hn hne
  | ok data =>
    cases data with
    | nil => rfl
    | cons hd tl =>
      obtain ⟨lat, lon⟩ := hd
      by_cases hb : GeocodePermits.inBC lat lon = true <;>
        simp [GeocodePermits.acceptCandidate, hb]

/-- A call whose normalized key is cached returns the cached value and
leaves the state untouched (no request). -/
theorem api_cached_call (net : String → NetResult) (st : Api.ApiState)
    (a2 : String) (c2 : Option String) (key : String) (v : Option (ℚ × ℚ))
    (h2 : pyStrip a2 ≠ "")
    (hfind : st.cache.find? (fun kv => kv.1 == Api.normKey a2) = some (key, v)) :
    Api.geocode_address net st a2 c2 = (v, st) := by
  have ha2 : a2 ≠ "" := fun e => h2 (by rw [e]; rfl)
  unfold Api.geocode_address
  rw [if_neg (by simp [ha2, h2])]
  dsimp only
  rw [hfind]

/-- C8 (amended): the pipeline enrichment path performs no caching — each
usable enrichment request issues its own network call (two same-address
records produce two requests) — while the API layer's `geocode_address`
caches by lowercased-and-trimmed key, including negative not-found and
out-of-region outcomes (network errors are not cached): a second call for
the same normalized key returns the first call's result without touching
the network. -/
theorem api_cache_single_network_call (net : String → NetResult) (st : Api.ApiState)
    (a1 a2 : String) (c1 c2 : Option String)
    (h1 : pyStrip a1 ≠ "") (h2 : pyStrip a2 ≠ "")
    (hk : Api.normKey a1 = Api.normKey a2)
    (hc : st.cache.find? (fun kv => kv.1 == Api.normKey a1) = none)
    (hne : net (Api.apiQuery a1 c1) ≠ NetResult.err) :
    (Api.geocode_address net st a1 c1).2.calls = st.calls + 1 ∧
    Api.geocode_address net (Api.geocode_address net st a1 c1).2 a2 c2
      = ((Api.geocode_address net st a1 c1).1, (Api.geocode_address net st a1 c1).2) ∧
    (GeocodePermits.geocode_all_permits netBC dbTwoSame).2.2.1 = 2 := by
  have e1 := api_first_call_state net st a1 c1 h1 hc hne
  refine ⟨by rw [e1], ?_, by decide⟩
  rw [e1]
  refine api_cached_call net _ a2 c2 (Api.normKey a1)
    (GeocodePermits.acceptCandidate (net (Api.apiQuery a1 c1))) h2 ?_
  show (st.cache ++
      [(Api.normKey a1, GeocodePermits.acceptCandidate (net (Api.apiQuery a1 c1)))]).find?
        (fun kv => kv.1 == Api.normKey a2) = _
  rw [← hk]
  rw [find?_append_of_none _ st.cache _ hc]
  exact List.find?_cons_of_pos _ (by simp)

/-- C8 amended-claim witness: a fresh cache, an address and a re-spelled
variant with the same normalized key: the first call issues the single
request and the second returns the same result from the cache. -/
theorem api_cache_single_network_call_witness :
    pyStrip "123 Main St" ≠ "" ∧
    Api.normKey "123 Main St" = Api.normKey " 123 MAIN ST " ∧
    ((Api.geocode_address netBC ⟨[], 0⟩ "123 Main St" (some "Vancouver")).2.calls = 0 + 1 ∧
     Api.geocode_address netBC
         (Api.geocode_address netBC ⟨[], 0⟩ "123 Main St" (some "Vancouver")).2
         " 123 MAIN ST " none
       = ((Api.geocode_address netBC ⟨[], 0⟩ "123 Main St" (some "Vancouver")).1,
          (Api.geocode_address netBC ⟨[], 0⟩ "123 Main St" (some "Vancouver")).2) ∧
     (GeocodePermits.geocode_all_permits netBC dbTwoSame).2.2.1 = 2) :=
  ⟨by decide, by decide,
   api_cache_single_network_call netBC ⟨[], 0⟩ "123 Main St" " 123 MAIN ST "
     (some "Vancouver") none (by decide) (by decide) (by decide) rfl (by decide)⟩
